import Mathlib

/-!
Verification of the structure_tools repository (structure_exporter.py):
a shallow embedding of its playback, export-planning, marker-index and
time-formatting logic, with theorems checking the natural-language
specification against it.

Python machine floats are modelled as exact rationals (ℚ): every numeric
operation the embedded code performs (floor division, modulo, comparison,
max/min, addition, subtraction) is exact on the values the claims quantify
over, and JSON
serialisation of Python floats round-trips exactly, so ℚ is a faithful
carrier for these claims.
-/

namespace StructureTools

/-! ## Python numeric primitives -/

/-- Python float floor (`math.floor` / the value of `x // 1`): for an exact
rational `q` in lowest terms this is `num / den` with Euclidean (= floor,
since `den > 0`) integer division. -/
def pyFloor (q : ℚ) : ℤ := q.num / (q.den : ℤ)

/-- Python `int(x)`: truncation toward zero, i.e. T-division of the reduced
numerator by the denominator. -/
def pyInt (q : ℚ) : ℤ := q.num.tdiv (q.den : ℤ)

/-- Python `x % m` on floats (result has the sign of `m`; the code only uses
`m > 0`): `x - m * (x // m)` with `//` the floor division. -/
def pyMod (x m : ℚ) : ℚ := x - m * (pyFloor (x / m) : ℚ)

/-- Python `f"{n:02d}"`: decimal rendering zero-padded to width 2. -/
def zpad2 (n : ℤ) : String :=
  if 0 ≤ n ∧ n < 10 then "0" ++ toString n else toString n

/-! ## Time Formatter (`VideoPlayer.format_time` / `StructureExporter.format_time`,
both bodies are identical) -/

/-- From `format_time(self, seconds)`:
`m = int(seconds // 60); s = int(seconds % 60); ms = int((seconds % 1) * 100);
return f"{m}:{s:02d}.{ms:02d}"`.
(`seconds // 60` is already an integer-valued float, so `int` of it is its floor.) -/
def format_time (seconds : ℚ) : String :=
  let m : ℤ := pyFloor (seconds / 60)
  let s : ℤ := pyInt (pyMod seconds 60)
  let ms : ℤ := pyInt (pyMod seconds 1 * 100)
  toString m ++ ":" ++ zpad2 s ++ "." ++ zpad2 ms

/-- From `format_time_compact(self, seconds)`:
`m = int(seconds // 60); s = int(seconds % 60); return f"{m}-{s:02d}"`. -/
def format_time_compact (seconds : ℚ) : String :=
  let m : ℤ := pyFloor (seconds / 60)
  let s : ℤ := pyInt (pyMod seconds 60)
  toString m ++ "-" ++ zpad2 s

/-! ## Export Planner (`StructureExporter.export_clip`)

The two resolution profiles offered by the radio buttons, with the duration
limits `max_dur = 16 if res == "640" else 66`. -/

/-- Python `str.strip()`: drop leading and trailing whitespace. -/
def pyStrip (s : String) : String :=
  String.mk (((s.toList.dropWhile Char.isWhitespace).reverse.dropWhile Char.isWhitespace).reverse)

/-- Resolution profile: `"640"` (640x480) or `"320"` (320x240). -/
inductive Res where
  | r640
  | r320
deriving DecidableEq

/-- `max_dur = 16 if res == "640" else 66` (seconds). -/
def maxDur : Res → ℚ
  | .r640 => 16
  | .r320 => 66

/-- `coarse_seek = max(0, self.in_point - 5)`: coarse keyframe seek placed
before the transcoder opens its input. -/
def coarse_seek (in_point : ℚ) : ℚ := max 0 (in_point - 5)

/-- `fine_seek = self.in_point - coarse_seek`: frame-accurate seek performed
after the transcoder opens its input. -/
def fine_seek (in_point : ℚ) : ℚ := in_point - coarse_seek in_point

/-- The data of the transcode invocation `export_clip` builds once all
validation has passed: the two-stage seek offsets, the clip duration
`out_point - in_point`, the resolution profile and the (stripped) output
name. -/
structure Invocation where
  coarse : ℚ
  fine : ℚ
  clipDuration : ℚ
  res : Res
  outputName : String
deriving DecidableEq

/-- Observable outcome of `export_clip`: the three `messagebox.showerror`
early returns, the user declining the over-duration confirmation, or the
transcode invocation being built and run. -/
inductive ExportOutcome where
  | errNoVideo
  | errInvalidRange
  | errMissingName
  | cancelled
  | run (inv : Invocation)
deriving DecidableEq

/-- From `StructureExporter.export_clip`, validation and planning part.
Inputs are the fields the method reads (`self.current_segment`,
`self.in_point`, `self.out_point`, the output-name entry, the resolution
radio variable), plus `confirmLong`: the user's answer to the
`messagebox.askyesno` duration warning. -/
def export_clip (current_segment : Option String) (in_point out_point : ℚ)
    (output_name_raw : String) (res : Res) (confirmLong : Bool) : ExportOutcome :=
  match current_segment with
  | none => .errNoVideo
  | some _ =>
    if out_point ≤ in_point then .errInvalidRange
    else
      let output_name := pyStrip output_name_raw
      if output_name = "" then .errMissingName
      else
        let duration := out_point - in_point
        if maxDur res < duration then
          if confirmLong then
            .run ⟨coarse_seek in_point, fine_seek in_point, out_point - in_point, res, output_name⟩
          else .cancelled
        else
          .run ⟨coarse_seek in_point, fine_seek in_point, out_point - in_point, res, output_name⟩

/-! ## Segment/Marker index and its JSON persistence

`self.index` is a Python dict of `segment filename → {"in_point": float,
"out_point": float, "markers": [float]}`, each key optional (entries are
created as `{}` and filled in by `save_in_out_points` /
`save_markers_for_segment`).  `save_index` serialises it with `json.dump`,
`load_index` reads it back with `json.load`; `json` round-trips finite
Python floats exactly, so numbers are modelled as exact rationals. -/

/-- JSON values, as far as the index file uses them. -/
inductive Json where
  | num (q : ℚ)
  | str (s : String)
  | arr (elems : List Json)
  | obj (fields : List (String × Json))

/-- One entry of `self.index`: a dict whose three keys are each optional. -/
structure SegmentEntry where
  in_point : Option ℚ
  out_point : Option ℚ
  markers : Option (List ℚ)
deriving DecidableEq

/-- `self.index`, a dict keyed by segment filename.  Modelled as an
association list in insertion order (Python dicts preserve insertion
order). -/
abbrev SegmentIndex := List (String × SegmentEntry)

/-- Dict lookup `index.get(key)`. -/
def getEntry (idx : SegmentIndex) (k : String) : Option SegmentEntry :=
  (idx.find? (fun p => p.1 == k)).map (·.2)

/-- Dict update `index[key] = e`: overwrite in place, or append a new key. -/
def setEntry (idx : SegmentIndex) (k : String) (e : SegmentEntry) : SegmentIndex :=
  match idx with
  | [] => [(k, e)]
  | (k', e') :: rest => if k' == k then (k', e) :: rest else (k', e') :: setEntry rest k e

/-- Serialisation of one entry dict: exactly the keys present in the dict,
in the order the code creates them. -/
def entryFields (e : SegmentEntry) : List (String × Json) :=
  (match e.in_point with | some q => [("in_point", Json.num q)] | none => []) ++
  (match e.out_point with | some q => [("out_point", Json.num q)] | none => []) ++
  (match e.markers with | some ms => [("markers", Json.arr (ms.map Json.num))] | none => [])

/-- `json.dump(self.index, f)`: the JSON object written by `save_index`. -/
def save_index (idx : SegmentIndex) : Json :=
  Json.obj (idx.map fun p => (p.1, Json.obj (entryFields p.2)))

/-- Reading a JSON number back. -/
def asNum : Json → Option ℚ
  | .num q => some q
  | _ => none

/-- Reading a JSON array of numbers back. -/
def decodeNums : List Json → Option (List ℚ)
  | [] => some []
  | j :: rest =>
    match asNum j, decodeNums rest with
    | some q, some qs => some (q :: qs)
    | _, _ => none

/-- Field lookup in a JSON object. -/
def lookupField (fs : List (String × Json)) (k : String) : Option Json :=
  (fs.find? (fun p => p.1 == k)).map (·.2)

/-- Optional numeric field: `some none` when the key is absent,
`some (some q)` when present with a number, `none` on a type mismatch. -/
def getNumField (fs : List (String × Json)) (k : String) : Option (Option ℚ) :=
  match lookupField fs k with
  | none => some none
  | some j => (asNum j).map some

/-- Optional markers field. -/
def getMarkersField (fs : List (String × Json)) : Option (Option (List ℚ)) :=
  match lookupField fs "markers" with
  | none => some none
  | some (.arr xs) => (decodeNums xs).map some
  | some _ => none

/-- Reading one entry dict back from JSON. -/
def decodeEntry (j : Json) : Option SegmentEntry :=
  match j with
  | .obj fs =>
    match getNumField fs "in_point", getNumField fs "out_point", getMarkersField fs with
    | some ip, some op, some ms => some ⟨ip, op, ms⟩
    | _, _, _ => none
  | _ => none

/-- Reading the whole keyed object back. -/
def decodeIndexFields : List (String × Json) → Option SegmentIndex
  | [] => some []
  | (k, j) :: rest =>
    match decodeEntry j, decodeIndexFields rest with
    | some e, some es => some ((k, e) :: es)
    | _, _ => none

/-- `json.load` result interpreted as a segment index. -/
def decodeIndex : Json → Option SegmentIndex
  | .obj fs => decodeIndexFields fs
  | _ => none

/-- `load_index`: a missing file or a corrupt/mistyped one yields the empty
store (`return {}` under the bare `except`). -/
def load_index (file : Option Json) : SegmentIndex :=
  match file with
  | none => []
  | some j => (decodeIndex j).getD []

/-! ## VideoPlayer (`class VideoPlayer`)

The decode/scrub state of the player.  `pos` is the capture's read-cursor
timestamp in seconds (`CAP_PROP_POS_MSEC / 1000`, what `get_current_time`
returns); a successful `cap.read()` delivers the frame at `pos` and advances
the cursor by one frame interval `1/fps`. -/

structure PlayerState where
  capOpen : Bool
  pos : ℚ
  current_frame : ℤ
  total_frames : ℤ
  fps : ℚ
  playing : Bool
  decodeRunning : Bool
  wasPlayingBeforeScrub : Bool
  loop_in : ℚ
  loop_out : ℚ
deriving DecidableEq

/-- The `LoopRegion` invariant stated by the spec's data model:
`0 ≤ in_seconds` and (`out_seconds == 0` or `out_seconds > in_seconds`). -/
def LoopRegionInv (st : PlayerState) : Prop :=
  0 ≤ st.loop_in ∧ (st.loop_out = 0 ∨ st.loop_in < st.loop_out)

/-- One iteration of `VideoPlayer._decode_loop`'s `while` body (state part;
the sleep/pacing arithmetic touches no player state).  `cap.read()` succeeds
while the cursor is before end of media; on success the cursor has advanced
one frame interval and `current_frame` is incremented, then the loop-bound
check runs: with an active loop (`loop_out > 0`) and
`pos_sec >= loop_out` the cursor is repositioned to `loop_in` and
`current_frame = int(loop_in * fps)`; with no active loop, reaching
`total_frames` wraps the cursor to frame 0. -/
def decodeTick (st : PlayerState) : PlayerState :=
  if st.decodeRunning && st.capOpen then
    if st.pos < st.total_frames / st.fps then
      if 0 < st.loop_out then
        if st.loop_out ≤ st.pos + 1 / st.fps then
          { st with pos := st.loop_in, current_frame := pyInt (st.loop_in * st.fps) }
        else
          { st with pos := st.pos + 1 / st.fps, current_frame := st.current_frame + 1 }
      else
        if st.total_frames ≤ st.current_frame + 1 then
          { st with pos := 0, current_frame := 0 }
        else
          { st with pos := st.pos + 1 / st.fps, current_frame := st.current_frame + 1 }
    else st
  else st

/-- `n` iterations of the decode loop. -/
def decodeIter : ℕ → PlayerState → PlayerState
  | 0, st => st
  | n + 1, st => decodeIter n (decodeTick st)

/-- `VideoPlayer.play` (thread bookkeeping aside). -/
def play (st : PlayerState) : PlayerState :=
  { st with playing := true, decodeRunning := true }

/-- `VideoPlayer.pause`. -/
def pause (st : PlayerState) : PlayerState :=
  { st with playing := false, decodeRunning := false }

/-- `VideoPlayer.seek(frame_num, scrubbing)`: no-op without an open capture;
if playing, records "was playing" only when `scrubbing` is true, then stops
the decode thread; clamps the frame to `[0, total_frames - 1]`, positions
the cursor there and shows that frame (`show_frame` reads it and resets the
read position back to `current_frame`, so the net cursor is at the clamped
frame). -/
def seek (st : PlayerState) (frame_num : ℤ) (scrubbing : Bool) : PlayerState :=
  if st.capOpen then
    let st1 :=
      if st.playing then
        { st with
          wasPlayingBeforeScrub := if scrubbing then true else st.wasPlayingBeforeScrub,
          decodeRunning := false, playing := false }
      else st
    let f := max 0 (min frame_num (st1.total_frames - 1))
    { st1 with current_frame := f, pos := f / st1.fps }
  else st

/-- `VideoPlayer.scrub_ended`: resumes playback only if
`_was_playing_before_scrub` was recorded, and clears the flag. -/
def scrub_ended (st : PlayerState) : PlayerState :=
  if st.wasPlayingBeforeScrub then
    play { st with wasPlayingBeforeScrub := false }
  else st

/-! ## StructureExporter state and operations -/

/-- The fields of `StructureExporter` the verified operations touch, with
the embedded `VideoPlayer`. -/
structure ExporterState where
  player : PlayerState
  current_segment : Option String
  in_point : ℚ
  out_point : ℚ
  markers : List ℚ
  index : SegmentIndex
  output_name : String
  output_name_edited : Bool
deriving DecidableEq

/-- `os.path.basename`: the part of the path after the last `/`. -/
def basename (p : String) : String :=
  String.mk (p.toList.foldl (fun acc c => if c = '/' then [] else acc ++ [c]) [])

/-- The stem part of `os.path.splitext`: drop the extension, which starts at
the last `.` that comes after the (possibly empty) run of leading dots. -/
def splitextStem (s : String) : String :=
  let cs := s.toList
  let lead := (cs.takeWhile (fun c => c = '.')).length
  let dotIdxs := (List.range cs.length).filter
    (fun i => decide (lead < i) && (cs.getD i ' ' == '.'))
  match dotIdxs.getLast? with
  | none => s
  | some i => String.mk (cs.take i)

/-- `get_segment_key`: `os.path.basename(self.current_segment)` or `None`. -/
def get_segment_key (st : ExporterState) : Option String :=
  st.current_segment.map basename

/-- The auto-generated output name
`f"{basename}_{in_str}_to_{out_str}"` of `update_output_name`. -/
def autoOutputName (p : String) (in_point out_point : ℚ) : String :=
  splitextStem (basename p) ++ "_" ++ format_time_compact in_point ++ "_to_" ++
    format_time_compact out_point

/-- `update_output_name`: without a segment it returns early, otherwise it
unconditionally overwrites the output-name entry with the auto-generated
name (the `_output_name_edited` flag is not consulted). -/
def update_output_name (st : ExporterState) : ExporterState :=
  match st.current_segment with
  | none => st
  | some p => { st with output_name := autoOutputName p st.in_point st.out_point }

/-- `_on_output_name_key`: any keypress in the name entry sets
`_output_name_edited = True`. -/
def on_output_name_key (st : ExporterState) : ExporterState :=
  { st with output_name_edited := true }

/-- `save_in_out_points` (in-memory part): create the entry dict if absent,
store `in_point`/`out_point` in it. -/
def save_in_out_points (st : ExporterState) : ExporterState :=
  match get_segment_key st with
  | none => st
  | some k =>
    let e := (getEntry st.index k).getD ⟨none, none, none⟩
    { st with index := setEntry st.index k { e with in_point := some st.in_point, out_point := some st.out_point } }

/-- `set_in_point`: `t` is `self.player.get_current_time()`.  Stores it as
the in point and the player's loop-in, persists, relabels, and regenerates
the output name. -/
def set_in_point (st : ExporterState) (t : ℚ) : ExporterState :=
  let st1 := { st with in_point := t, player := { st.player with loop_in := t } }
  update_output_name (save_in_out_points st1)

/-- `set_out_point`: `t` is `self.player.get_current_time()`.  Stores it as
the out point and the player's loop-out, persists, relabels, and regenerates
the output name. -/
def set_out_point (st : ExporterState) (t : ℚ) : ExporterState :=
  let st1 := { st with out_point := t, player := { st.player with loop_out := t } }
  update_output_name (save_in_out_points st1)

/-- The duplicate test of `add_marker`:
`any(abs(m - t) < 0.1 for m in self.markers)`. -/
def nearDup (markers : List ℚ) (t : ℚ) : Bool :=
  markers.any (fun m => |m - t| < mkRat 1 10)

/-- `save_markers_for_segment` (in-memory part): create the entry dict if
absent, store `sorted(self.markers)` in it. -/
def save_markers_for_segment (st : ExporterState) : ExporterState :=
  match get_segment_key st with
  | none => st
  | some k =>
    let e := (getEntry st.index k).getD ⟨none, none, none⟩
    { st with index := setEntry st.index k { e with markers := some (st.markers.insertionSort (· ≤ ·)) } }

/-- `add_marker` (in-memory part): no-op without an open capture; no-op when
an existing marker is within 0.1 s; otherwise append `t`, sort, and store
into the index. -/
def add_marker (st : ExporterState) (t : ℚ) : ExporterState :=
  if st.player.capOpen then
    if nearDup st.markers t then st
    else
      save_markers_for_segment
        { st with markers := (st.markers ++ [t]).insertionSort (· ≤ ·) }
  else st

/-! ## Persistence effects

`save_index` opens the index file and writes the serialised dict; an I/O
failure raises and propagates out of the triggering operation (there is no
`try` around it), which is the spec taxonomy's `PersistenceError`.  The
in-memory mutations happen before the write and are not rolled back. -/

/-- The error `save_index` can surface (a raised `OSError`, named
`PersistenceError` in the spec's taxonomy). -/
inductive PersistenceError where
  | ioError
deriving DecidableEq

/-- `save_index` with its file effect: on success the file holds the
serialised index; on an I/O failure the file is unchanged and the error
propagates. -/
def save_index_io (writeOk : Bool) (st : ExporterState) (file : Option Json) :
    Option Json × Option PersistenceError :=
  if writeOk then (some (save_index st.index), none) else (file, some .ioError)

/-- `add_marker` with its persistence effect: the in-memory mutation
(markers list and index entry) happens first; `save_index` is reached only
on the mutating path with a segment key; a write failure leaves the file
unchanged and surfaces the error, after the in-memory mutation. -/
def add_marker_io (writeOk : Bool) (st : ExporterState) (file : Option Json) (t : ℚ) :
    ExporterState × Option Json × Option PersistenceError :=
  if st.player.capOpen then
    if nearDup st.markers t then (st, file, none)
    else
      let st1 := { st with markers := (st.markers ++ [t]).insertionSort (· ≤ ·) }
      match get_segment_key st1 with
      | none => (st1, file, none)
      | some k =>
        let e := (getEntry st1.index k).getD ⟨none, none, none⟩
        let st2 := { st1 with
          index := setEntry st1.index k { e with markers := some (st1.markers.insertionSort (· ≤ ·)) } }
        let w := save_index_io writeOk st2 file
        (st2, w.1, w.2)
  else (st, file, none)

/-! ## Concrete example states -/

/-- A player with a 100-second, 24 fps source loaded (2400 frames), idle at
frame 0 with no loop region. -/
def examplePlayer : PlayerState :=
  { capOpen := true, pos := 0, current_frame := 0, total_frames := 2400, fps := 24,
    playing := false, decodeRunning := false, wasPlayingBeforeScrub := false,
    loop_in := 0, loop_out := 0 }

/-- An exporter state with loop region in=5 s, out=10 s. -/
def exporterLoop510 : ExporterState :=
  { player := { examplePlayer with loop_in := 5, loop_out := 10 },
    current_segment := none, in_point := 5, out_point := 10, markers := [],
    index := [], output_name := "clip_01", output_name_edited := false }

/-- An exporter state with no markers yet. -/
def exporterNoMarkers : ExporterState :=
  { player := examplePlayer, current_segment := none, in_point := 0, out_point := 100,
    markers := [], index := [], output_name := "clip_01", output_name_edited := false }

/-- An exporter state with a segment loaded and a manually edited name. -/
def exporterEdited : ExporterState :=
  { player := examplePlayer, current_segment := some "seg.mp4", in_point := 0,
    out_point := 100, markers := [], index := [], output_name := "my_custom_name",
    output_name_edited := true }

/-- A playing player mid-scrub-debounce: `_was_playing_before_scrub` already
recorded True (slider drag, then PLAY pressed before the 300 ms scrub-end
timer fired). -/
def playerMidScrub : PlayerState :=
  { examplePlayer with playing := true, decodeRunning := true, wasPlayingBeforeScrub := true }

/-- A playing player with no scrub in progress. -/
def playerPlaying : PlayerState :=
  { examplePlayer with playing := true, decodeRunning := true }

/-- A playing player ticking inside the loop region [5, 10], cursor at the
out bound. -/
def playerAtLoopOut : PlayerState :=
  { examplePlayer with
    playing := true, decodeRunning := true, pos := 10,
    current_frame := 240, loop_in := 5, loop_out := 10 }

/-! # Theorems -/

/-! ## Numeric bridge lemmas -/

theorem pyFloor_eq (q : ℚ) : pyFloor q = ⌊q⌋ := Rat.floor_def.symm

theorem pyInt_eq_floor (q : ℚ) (h : 0 ≤ q) : pyInt q = ⌊q⌋ := by
  rw [pyInt, Int.tdiv_eq_ediv (Rat.num_nonneg.mpr h) (by positivity), ← Rat.floor_def]

theorem floor_div_intCast (a : ℚ) (n : ℤ) (hn : 0 < n) : ⌊a / (n : ℚ)⌋ = ⌊a⌋ / n := by
  have hn' : (0:ℚ) < (n:ℚ) := by exact_mod_cast hn
  have h1 : ((⌊a⌋ / n : ℤ) : ℚ) ≤ a / n := by
    rw [le_div_iff₀ hn']
    calc ((⌊a⌋ / n : ℤ) : ℚ) * n = ((⌊a⌋ / n * n : ℤ) : ℚ) := by push_cast; ring
    _ ≤ ((⌊a⌋ : ℤ) : ℚ) := by exact_mod_cast Int.ediv_mul_le ⌊a⌋ hn.ne'
    _ ≤ a := Int.floor_le a
  have h2 : a / n < (⌊a⌋ / n : ℤ) + 1 := by
    rw [div_lt_iff₀ hn']
    have hz : ⌊a⌋ < (⌊a⌋ / n + 1) * n := Int.lt_ediv_add_one_mul_self ⌊a⌋ hn
    have h3 : a < (((⌊a⌋ / n + 1) * n : ℤ) : ℚ) := by
      calc a < ⌊a⌋ + 1 := Int.lt_floor_add_one a
      _ ≤ (((⌊a⌋ / n + 1) * n : ℤ) : ℚ) := by exact_mod_cast hz
    push_cast at h3 ⊢
    linarith
  exact Int.floor_eq_iff.mpr ⟨h1, by exact_mod_cast h2⟩

theorem pyMod_nonneg (x m : ℚ) (hm : 0 < m) : 0 ≤ pyMod x m := by
  rw [pyMod, pyFloor_eq, mul_comm]
  exact Int.sub_floor_div_mul_nonneg x hm

theorem pyInt_pyMod_sixty (s : ℚ) : pyInt (pyMod s 60) = ⌊s⌋ % 60 := by
  rw [pyInt_eq_floor _ (pyMod_nonneg s 60 (by norm_num))]
  rw [pyMod, pyFloor_eq]
  have h1 : (60:ℚ) * (⌊s / 60⌋ : ℚ) = ((60 * ⌊s / 60⌋ : ℤ) : ℚ) := by push_cast; ring
  rw [h1, Int.floor_sub_int]
  have h2 : ⌊s / (60:ℚ)⌋ = ⌊s⌋ / (60:ℤ) := by
    exact_mod_cast floor_div_intCast s 60 (by norm_num)
  rw [h2]
  omega

theorem pyMod_one (s : ℚ) : pyMod s 1 = s - ⌊s⌋ := by
  rw [pyMod, pyFloor_eq, div_one, one_mul]

theorem pyInt_centis (s : ℚ) : pyInt (pyMod s 1 * 100) = ⌊(s - ⌊s⌋) * 100⌋ := by
  rw [pyMod_one, pyInt_eq_floor]
  exact mul_nonneg (by linarith [Int.floor_le s]) (by norm_num)

theorem zpad2_length (n : ℤ) (h0 : 0 ≤ n) (h1 : n < 100) : (zpad2 n).length = 2 := by
  have key : ∀ m : ℕ, m < 100 → (zpad2 (m : ℤ)).length = 2 := by decide
  obtain ⟨m, rfl⟩ := Int.eq_ofNat_of_zero_le h0
  exact key m (by exact_mod_cast h1)

theorem format_time_eq (s : ℚ) :
    format_time s =
      toString (⌊s⌋ / 60) ++ ":" ++ zpad2 (⌊s⌋ % 60) ++ "." ++ zpad2 ⌊(s - ⌊s⌋) * 100⌋ := by
  unfold format_time
  rw [pyFloor_eq, pyInt_pyMod_sixty, pyInt_centis]
  have h2 : ⌊s / (60:ℚ)⌋ = ⌊s⌋ / (60:ℤ) := by
    exact_mod_cast floor_div_intCast s 60 (by norm_num)
  rw [h2]

/-- C8: for all seconds `s ≥ 0`, `format_time s` is
minutes `:` seconds `.` centiseconds where minutes is `int(s // 60)`
unpadded, seconds is `int(s % 60)` zero-padded to two digits and
centiseconds is `int((s % 1) * 100)` zero-padded to two digits; in
particular `format_time 90.5 = "1:30.50"` and
`format_time 125.75 = "2:05.75"`. -/
theorem format_time_spec :
    (∀ s : ℚ, 0 ≤ s →
      format_time s =
        toString (⌊s⌋ / 60) ++ ":" ++ zpad2 (⌊s⌋ % 60) ++ "." ++ zpad2 ⌊(s - ⌊s⌋) * 100⌋ ∧
      (zpad2 (⌊s⌋ % 60)).length = 2 ∧
      (zpad2 ⌊(s - ⌊s⌋) * 100⌋).length = 2) ∧
    format_time (181 / 2) = "1:30.50" ∧ format_time (503 / 4) = "2:05.75" := by
  refine ⟨fun s _ => ⟨format_time_eq s, ?_, ?_⟩, ?_, ?_⟩
  · exact zpad2_length _ (Int.emod_nonneg _ (by norm_num)) (by
      have := Int.emod_lt_of_pos ⌊s⌋ (b := 60) (by norm_num)
      omega)
  · refine zpad2_length _ (Int.floor_nonneg.mpr ?_) (Int.floor_lt.mpr ?_)
    · exact mul_nonneg (by linarith [Int.floor_le s]) (by norm_num)
    · have h := Int.lt_floor_add_one s
      push_cast
      nlinarith [Int.lt_floor_add_one s]
  · rw [format_time_eq]
    norm_num
    rfl
  · rw [format_time_eq]
    norm_num
    rfl

/-- Witness for `format_time_spec` at `s = 90.5`. -/
theorem format_time_spec_witness :
    (0:ℚ) ≤ 181 / 2 ∧
      (format_time (181 / 2) =
        toString (⌊(181 / 2 : ℚ)⌋ / 60) ++ ":" ++ zpad2 (⌊(181 / 2 : ℚ)⌋ % 60) ++ "." ++
          zpad2 ⌊((181 / 2 : ℚ) - ⌊(181 / 2 : ℚ)⌋) * 100⌋ ∧
      (zpad2 (⌊(181 / 2 : ℚ)⌋ % 60)).length = 2 ∧
      (zpad2 ⌊((181 / 2 : ℚ) - ⌊(181 / 2 : ℚ)⌋) * 100⌋).length = 2) :=
  ⟨by norm_num, format_time_spec.1 (181 / 2) (by norm_num)⟩

/-! ## Export validation and seek plan -/

/-- C2: the export validation checks run in a fixed order with first failure
winning: no source → fail (nothing else checked); else `out ≤ in` →
invalid-range; else empty stripped name → missing-name; else duration above
the profile's limit (16 s at 640x480, 66 s at 320x240) → non-fatal
confirmation, declining cancels; only then is the invocation built. -/
theorem export_validation_order (seg : String) (i o : ℚ) (name : String) (r : Res)
    (c : Bool) :
    export_clip none i o name r c = .errNoVideo ∧
    (o ≤ i → export_clip (some seg) i o name r c = .errInvalidRange) ∧
    (i < o → pyStrip name = "" → export_clip (some seg) i o name r c = .errMissingName) ∧
    (i < o → pyStrip name ≠ "" → maxDur r < o - i →
      export_clip (some seg) i o name r false = .cancelled ∧
      export_clip (some seg) i o name r true =
        .run ⟨coarse_seek i, fine_seek i, o - i, r, pyStrip name⟩) ∧
    (i < o → pyStrip name ≠ "" → o - i ≤ maxDur r →
      export_clip (some seg) i o name r c =
        .run ⟨coarse_seek i, fine_seek i, o - i, r, pyStrip name⟩) ∧
    maxDur .r640 = 16 ∧ maxDur .r320 = 66 := by
  refine ⟨rfl, fun h => ?_, fun h1 h2 => ?_, fun h1 h2 h3 => ⟨?_, ?_⟩, fun h1 h2 h3 => ?_,
    rfl, rfl⟩
  · simp [export_clip, h]
  · simp [export_clip, not_le.mpr h1, h2]
  · simp [export_clip, not_le.mpr h1, h2, h3]
  · simp [export_clip, not_le.mpr h1, h2, h3]
  · simp [export_clip, not_le.mpr h1, h2, not_lt.mpr h3]

/-- Witness for `export_validation_order`: the spec's scenario —
in=10 s, out=5 s is an invalid range; in=0 s, out=20 s at the 640 profile
(16 s max) requires confirmation, so declining cancels and confirming
builds the invocation. -/
theorem export_validation_order_witness :
    ((5:ℚ) ≤ 10 ∧
      export_clip (some "segment_01.mp4") 10 5 "clip_01" .r640 false = .errInvalidRange) ∧
    ((0:ℚ) < 20 ∧ pyStrip "clip_01" ≠ "" ∧ maxDur .r640 < 20 - 0 ∧
      (export_clip (some "segment_01.mp4") 0 20 "clip_01" .r640 false = .cancelled ∧
       export_clip (some "segment_01.mp4") 0 20 "clip_01" .r640 true =
         .run ⟨coarse_seek 0, fine_seek 0, 20 - 0, .r640, pyStrip "clip_01"⟩)) :=
  ⟨⟨by norm_num,
    (export_validation_order "segment_01.mp4" 10 5 "clip_01" .r640 false).2.1 (by norm_num)⟩,
   ⟨by norm_num, by decide, by norm_num [maxDur],
    (export_validation_order "segment_01.mp4" 0 20 "clip_01" .r640 false).2.2.2.1
      (by norm_num) (by decide) (by norm_num [maxDur])⟩⟩

/-- C3: for every `in_point ≥ 0` the plan's coarse seek point is
`max(0, in_point - 5)` and the fine seek offset is `in_point - coarse`, so
`coarse ≥ 0`, `coarse + fine = in_point` exactly, and for `in_point ≥ 5`
the coarse point is exactly 5 s before the in point with fine offset 5; the
invocation built by `export_clip` carries exactly these offsets. -/
theorem seek_plan_spec (i : ℚ) (_hi : 0 ≤ i) :
    0 ≤ coarse_seek i ∧
    coarse_seek i + fine_seek i = i ∧
    (5 ≤ i → coarse_seek i = i - 5 ∧ fine_seek i = 5) ∧
    (∀ (seg : String) (o : ℚ) (name : String) (r : Res) (c : Bool) (inv : Invocation),
      export_clip (some seg) i o name r c = .run inv →
      inv.coarse = coarse_seek i ∧ inv.fine = fine_seek i) := by
  refine ⟨le_max_left 0 _, by rw [fine_seek]; ring, fun h5 => ?_, ?_⟩
  · have hc : coarse_seek i = i - 5 := max_eq_right (by linarith)
    exact ⟨hc, by rw [fine_seek, hc]; ring⟩
  · intro seg o name r c inv h
    unfold export_clip at h
    simp only at h
    split_ifs at h <;> simp_all [ExportOutcome.run.injEq] <;> simp [← h]

/-- Witness for `seek_plan_spec` at `in_point = 7`. -/
theorem seek_plan_spec_witness :
    (0:ℚ) ≤ 7 ∧
      (0 ≤ coarse_seek 7 ∧
       coarse_seek 7 + fine_seek 7 = 7 ∧
       ((5:ℚ) ≤ 7 → coarse_seek 7 = 7 - 5 ∧ fine_seek 7 = 5) ∧
       (∀ (seg : String) (o : ℚ) (name : String) (r : Res) (c : Bool) (inv : Invocation),
         export_clip (some seg) 7 o name r c = .run inv →
         inv.coarse = coarse_seek 7 ∧ inv.fine = fine_seek 7)) :=
  ⟨by norm_num, seek_plan_spec 7 (by norm_num)⟩

/-! ## Index round-trip (C6) -/

theorem decodeNums_map (ms : List ℚ) : decodeNums (ms.map Json.num) = some ms := by
  induction ms with
  | nil => rfl
  | cons q qs ih => simp [decodeNums, asNum, ih]

theorem decodeEntry_encode (e : SegmentEntry) :
    decodeEntry (Json.obj (entryFields e)) = some e := by
  rcases e with ⟨ip, op, ms⟩
  cases ip <;> cases op <;> cases ms <;>
    simp [decodeEntry, entryFields, getNumField, getMarkersField, lookupField,
      List.find?, asNum, decodeNums_map]

/-- C6: the segment index round-trips losslessly — for every index mapping,
`save_index` followed by `load_index` reproduces an identical mapping, every
key, in point, out point and marker value preserved exactly. -/
theorem index_round_trip (idx : SegmentIndex) :
    load_index (some (save_index idx)) = idx := by
  rw [load_index, save_index]
  have h : ∀ l : SegmentIndex,
      decodeIndexFields (l.map fun p => (p.1, Json.obj (entryFields p.2))) = some l := by
    intro l
    induction l with
    | nil => rfl
    | cons p rest ih =>
      simp [decodeIndexFields, decodeEntry_encode, ih]
  simp [decodeIndex, h idx]

/-! ## Loop-region invariant under set-in/set-out (C4) -/

theorem update_output_name_player (st : ExporterState) :
    (update_output_name st).player = st.player := by
  unfold update_output_name
  split <;> rfl

theorem save_in_out_points_player (st : ExporterState) :
    (save_in_out_points st).player = st.player := by
  unfold save_in_out_points
  split <;> rfl

theorem set_in_point_player (st : ExporterState) (t : ℚ) :
    (set_in_point st t).player = { st.player with loop_in := t } := by
  unfold set_in_point
  rw [update_output_name_player, save_in_out_points_player]

theorem set_out_point_player (st : ExporterState) (t : ℚ) :
    (set_out_point st t).player = { st.player with loop_out := t } := by
  unfold set_out_point
  rw [update_output_name_player, save_in_out_points_player]

/-- C4 fails on the code: from the invariant-satisfying loop region
in=5 s, out=10 s, invoking `set_out_point` at playback time 3 s stores
`loop_out = 3` with `loop_in = 5` still in place, violating
`out_seconds == 0 or out_seconds > in_seconds` (neither action validates
the pair). -/
theorem loop_invariant_counterexample :
    LoopRegionInv exporterLoop510.player ∧ (0:ℚ) ≤ 3 ∧
      ¬ LoopRegionInv (set_out_point exporterLoop510 3).player := by
  refine ⟨⟨by norm_num [exporterLoop510, examplePlayer],
    Or.inr (by norm_num [exporterLoop510, examplePlayer])⟩, by norm_num, ?_⟩
  rw [set_out_point_player]
  simp only [LoopRegionInv, not_and, not_or]
  intro _
  constructor
  · norm_num
  · norm_num [exporterLoop510, examplePlayer]

/-- C4 amended: from an invariant-satisfying state and a playback time
`t ≥ 0`, `set_in_point` and `set_out_point` always preserve
`0 ≤ loop_in`, but preserve the full LoopRegion invariant only
conditionally: after `set_in_point` it holds iff `loop_out == 0` or
`t < loop_out`, and after `set_out_point` it holds iff `t == 0` or
`loop_in < t`. -/
theorem loop_invariant_amended (st : ExporterState) (t : ℚ)
    (hst : LoopRegionInv st.player) (ht : 0 ≤ t) :
    (0 ≤ (set_in_point st t).player.loop_in ∧ 0 ≤ (set_out_point st t).player.loop_in) ∧
    (LoopRegionInv (set_in_point st t).player ↔
      (st.player.loop_out = 0 ∨ t < st.player.loop_out)) ∧
    (LoopRegionInv (set_out_point st t).player ↔
      (t = 0 ∨ st.player.loop_in < t)) := by
  obtain ⟨h0, _⟩ := hst
  rw [set_in_point_player, set_out_point_player]
  simp only [LoopRegionInv]
  exact ⟨⟨ht, h0⟩, and_iff_right ht, and_iff_right h0⟩

/-- Witness for `loop_invariant_amended` at the in=5 s, out=10 s region and
playback time 7 s. -/
theorem loop_invariant_amended_witness :
    LoopRegionInv exporterLoop510.player ∧ (0:ℚ) ≤ 7 ∧
      ((0 ≤ (set_in_point exporterLoop510 7).player.loop_in ∧
        0 ≤ (set_out_point exporterLoop510 7).player.loop_in) ∧
      (LoopRegionInv (set_in_point exporterLoop510 7).player ↔
        (exporterLoop510.player.loop_out = 0 ∨ 7 < exporterLoop510.player.loop_out)) ∧
      (LoopRegionInv (set_out_point exporterLoop510 7).player ↔
        ((7:ℚ) = 0 ∨ exporterLoop510.player.loop_in < 7))) :=
  ⟨⟨by norm_num [exporterLoop510, examplePlayer],
    Or.inr (by norm_num [exporterLoop510, examplePlayer])⟩, by norm_num,
   loop_invariant_amended exporterLoop510 7
     ⟨by norm_num [exporterLoop510, examplePlayer],
      Or.inr (by norm_num [exporterLoop510, examplePlayer])⟩ (by norm_num)⟩

/-! ## Marker idempotence (C5) -/

theorem add_marker_dup (st : ExporterState) (t : ℚ)
    (h : nearDup st.markers t = true) : add_marker st t = st := by
  unfold add_marker
  by_cases hc : st.player.capOpen <;> simp [hc, h]

theorem save_markers_for_segment_markers (st : ExporterState) :
    (save_markers_for_segment st).markers = st.markers := by
  unfold save_markers_for_segment
  split <;> rfl

theorem add_marker_markers (st : ExporterState) (t : ℚ)
    (hcap : st.player.capOpen = true) (h : nearDup st.markers t = false) :
    (add_marker st t).markers = (st.markers ++ [t]).insertionSort (· ≤ ·) := by
  unfold add_marker
  simp [hcap, h, save_markers_for_segment_markers]

theorem nearDup_12_05 : nearDup [(12:ℚ)] (241 / 20) = true := by
  simp only [nearDup, List.any_cons, List.any_nil, Bool.or_false, decide_eq_true_eq]
  rw [Rat.mkRat_eq_divInt, Rat.divInt_eq_div]
  rw [abs_sub_lt_iff]
  norm_num

/-- C5: `add_marker` is idempotent within the 0.1 s tolerance — when an
existing marker is within 0.1 s of `t` the markers list (and the index it
would persist) is left unchanged; otherwise `t` is inserted and the list
remains sorted ascending; adding a marker at t=12.00 then at t=12.05
yields exactly one stored marker. -/
theorem add_marker_idempotent (st : ExporterState) (t : ℚ) :
    (nearDup st.markers t = true → add_marker st t = st) ∧
    (st.player.capOpen = true → nearDup st.markers t = false →
      (add_marker st t).markers = (st.markers ++ [t]).insertionSort (· ≤ ·) ∧
      (add_marker st t).markers.Sorted (· ≤ ·)) ∧
    (add_marker (add_marker exporterNoMarkers 12) (241 / 20)).markers = [12] := by
  refine ⟨add_marker_dup st t, fun hcap h => ⟨add_marker_markers st t hcap h, ?_⟩, ?_⟩
  · rw [add_marker_markers st t hcap h]
    exact List.sorted_insertionSort _ _
  · have h1 : add_marker exporterNoMarkers 12 = { exporterNoMarkers with markers := [12] } := by
      unfold add_marker save_markers_for_segment
      simp [exporterNoMarkers, examplePlayer, nearDup, get_segment_key,
        List.insertionSort, List.orderedInsert]
    rw [h1, add_marker_dup _ _ nearDup_12_05]

/-- Witness for `add_marker_idempotent`: with markers `[12]`, adding at
t=12.05 (within 0.1 s of 12.00) is a no-op. -/
theorem add_marker_idempotent_witness :
    nearDup ({ exporterNoMarkers with markers := [12] } : ExporterState).markers (241 / 20) = true ∧
      add_marker { exporterNoMarkers with markers := [12] } (241 / 20) =
        { exporterNoMarkers with markers := [12] } :=
  ⟨nearDup_12_05,
   (add_marker_idempotent { exporterNoMarkers with markers := [12] } (241 / 20)).1 nearDup_12_05⟩

/-! ## Persistence failure surfaces, no rollback (C7) -/

/-- C7: when persisting the index fails, the failure surfaces to the caller
(`PersistenceError` in the spec's taxonomy, a propagated I/O error in the
code), the file is unchanged, and the in-memory state — mutated before the
write — is exactly the state a successful call would leave: the mutation of
`add_marker` is not rolled back.  On a successful write the file holds the
post-mutation index. -/
theorem persistence_error_no_rollback (st : ExporterState) (file : Option Json) (t : ℚ)
    (k : String) (hcap : st.player.capOpen = true) (hdup : nearDup st.markers t = false)
    (hkey : get_segment_key st = some k) :
    (add_marker_io false st file t).2.2 = some PersistenceError.ioError ∧
    (add_marker_io false st file t).2.1 = file ∧
    (add_marker_io false st file t).1 = add_marker st t ∧
    (add_marker_io false st file t).1.markers = (st.markers ++ [t]).insertionSort (· ≤ ·) ∧
    (add_marker_io true st file t).1 = add_marker st t ∧
    (add_marker_io true st file t).2.2 = none ∧
    (add_marker_io true st file t).2.1 = some (save_index (add_marker st t).index) := by
  have hkey1 : get_segment_key
      { st with markers := (st.markers ++ [t]).insertionSort (· ≤ ·) } = some k := hkey
  unfold add_marker_io add_marker save_markers_for_segment save_index_io
  simp [hcap, hdup, hkey1, save_markers_for_segment_markers]

/-- Witness for `persistence_error_no_rollback`: adding a marker at t=3 with
segment `seg.mp4` loaded and a failing index write. -/
theorem persistence_error_no_rollback_witness :
    exporterEdited.player.capOpen = true ∧
    nearDup exporterEdited.markers 3 = false ∧
    get_segment_key exporterEdited = some "seg.mp4" ∧
    ((add_marker_io false exporterEdited none 3).2.2 = some PersistenceError.ioError ∧
     (add_marker_io false exporterEdited none 3).2.1 = none ∧
     (add_marker_io false exporterEdited none 3).1 = add_marker exporterEdited 3 ∧
     (add_marker_io false exporterEdited none 3).1.markers =
       (exporterEdited.markers ++ [3]).insertionSort (· ≤ ·) ∧
     (add_marker_io true exporterEdited none 3).1 = add_marker exporterEdited 3 ∧
     (add_marker_io true exporterEdited none 3).2.2 = none ∧
     (add_marker_io true exporterEdited none 3).2.1 =
       some (save_index (add_marker exporterEdited 3).index)) :=
  ⟨rfl, rfl, by decide,
   persistence_error_no_rollback exporterEdited none 3 "seg.mp4" rfl rfl (by decide)⟩

/-! ## Output name is always overwritten (C9) -/

theorem save_in_out_points_fields (st : ExporterState) :
    (save_in_out_points st).current_segment = st.current_segment ∧
    (save_in_out_points st).in_point = st.in_point ∧
    (save_in_out_points st).out_point = st.out_point := by
  unfold save_in_out_points
  split <;> exact ⟨rfl, rfl, rfl⟩

theorem update_output_name_name (st : ExporterState) (p : String)
    (h : st.current_segment = some p) :
    (update_output_name st).output_name = autoOutputName p st.in_point st.out_point := by
  unfold update_output_name
  rw [h]

theorem set_in_point_output_name (st : ExporterState) (t : ℚ) (p : String)
    (h : st.current_segment = some p) :
    (set_in_point st t).output_name = autoOutputName p t st.out_point := by
  unfold set_in_point
  obtain ⟨h1, h2, h3⟩ := save_in_out_points_fields
    { st with in_point := t, player := { st.player with loop_in := t } }
  rw [update_output_name_name _ p (by rw [h1]; exact h), h2, h3]

theorem set_out_point_output_name (st : ExporterState) (t : ℚ) (p : String)
    (h : st.current_segment = some p) :
    (set_out_point st t).output_name = autoOutputName p st.in_point t := by
  unfold set_out_point
  obtain ⟨h1, h2, h3⟩ := save_in_out_points_fields
    { st with out_point := t, player := { st.player with loop_out := t } }
  rw [update_output_name_name _ p (by rw [h1]; exact h), h2, h3]

/-- C9 (implicit): with a segment loaded, `set_in_point` / `set_out_point`
always overwrite the output-name field with the auto-generated
`{basename}_{in}_to_{out}` name, whatever name the user typed before: the
`_output_name_edited` flag is set by every keypress in the entry but never
consulted, so even immediately after a keypress the auto name replaces the
manual one. -/
theorem output_name_overwritten (st : ExporterState) (t : ℚ) (p : String)
    (hseg : st.current_segment = some p) :
    (set_in_point st t).output_name = autoOutputName p t st.out_point ∧
    (set_out_point st t).output_name = autoOutputName p st.in_point t ∧
    (on_output_name_key st).output_name_edited = true ∧
    (set_in_point (on_output_name_key st) t).output_name = autoOutputName p t st.out_point ∧
    (set_out_point (on_output_name_key st) t).output_name = autoOutputName p st.in_point t :=
  ⟨set_in_point_output_name st t p hseg,
   set_out_point_output_name st t p hseg,
   rfl,
   set_in_point_output_name (on_output_name_key st) t p hseg,
   set_out_point_output_name (on_output_name_key st) t p hseg⟩

/-- Witness for `output_name_overwritten`: a state whose name was manually
edited to `my_custom_name` still gets the auto-generated name. -/
theorem output_name_overwritten_witness :
    exporterEdited.current_segment = some "seg.mp4" ∧
    ((set_in_point exporterEdited 3).output_name =
        autoOutputName "seg.mp4" 3 exporterEdited.out_point ∧
     (set_out_point exporterEdited 3).output_name =
        autoOutputName "seg.mp4" exporterEdited.in_point 3 ∧
     (on_output_name_key exporterEdited).output_name_edited = true ∧
     (set_in_point (on_output_name_key exporterEdited) 3).output_name =
        autoOutputName "seg.mp4" 3 exporterEdited.out_point ∧
     (set_out_point (on_output_name_key exporterEdited) 3).output_name =
        autoOutputName "seg.mp4" exporterEdited.in_point 3) :=
  ⟨rfl, output_name_overwritten exporterEdited 3 "seg.mp4" rfl⟩

/-! ## Decode loop and loop region (C1) -/

theorem decodeTick_fixed (st : PlayerState) :
    (decodeTick st).loop_in = st.loop_in ∧ (decodeTick st).loop_out = st.loop_out ∧
    (decodeTick st).fps = st.fps ∧ (decodeTick st).total_frames = st.total_frames := by
  unfold decodeTick
  split_ifs <;> exact ⟨rfl, rfl, rfl, rfl⟩

theorem decodeTick_pos_le (st : PlayerState) (hout : 0 < st.loop_out)
    (hin : st.loop_in ≤ st.loop_out) (hpos : st.pos ≤ st.loop_out) :
    (decodeTick st).pos ≤ st.loop_out := by
  unfold decodeTick
  split_ifs <;>
    first
      | exact hin
      | exact le_of_lt (lt_of_not_le (by assumption))
      | exact absurd hout (by assumption)
      | exact hpos

theorem decodeIter_pos_le (st : PlayerState) (hout : 0 < st.loop_out)
    (hin : st.loop_in ≤ st.loop_out) (hpos : st.pos ≤ st.loop_out) :
    ∀ n, (decodeIter n st).pos ≤ st.loop_out := by
  intro n
  induction n generalizing st with
  | zero => exact hpos
  | succ n ih =>
    rw [decodeIter]
    obtain ⟨hi, ho, _, _⟩ := decodeTick_fixed st
    have := ih (decodeTick st) (ho ▸ hout) (hi ▸ ho ▸ hin)
      (decodeTick_pos_le st hout hin hpos |>.trans_eq ho.symm)
    exact ho ▸ this

/-- C1: during playback with an active loop region (`loop_out > 0`), on any
tick where the cursor's post-read timestamp reaches `loop_out`, the decode
loop repositions the cursor to `loop_in` (a position at or after the in
point) and recomputes `current_frame = int(loop_in * fps)`; with no loop
region (`loop_out == 0`), at end of media the cursor wraps to frame 0; and
starting at or before the out bound, along any number of decode iterations
the cursor timestamp never exceeds `loop_out` — so a delivered frame's
timestamp, one frame interval past the cursor, never exceeds
`loop_out + 1/fps` before the jump back. -/
theorem decode_loop_loop_region (st : PlayerState)
    (hrun : st.decodeRunning = true) (hcap : st.capOpen = true) :
    (0 < st.loop_out → st.pos < st.total_frames / st.fps →
      st.loop_out ≤ st.pos + 1 / st.fps →
      (decodeTick st).pos = st.loop_in ∧
      (decodeTick st).current_frame = pyInt (st.loop_in * st.fps) ∧
      st.loop_in ≤ (decodeTick st).pos) ∧
    (st.loop_out = 0 → st.pos < st.total_frames / st.fps →
      st.total_frames ≤ st.current_frame + 1 →
      (decodeTick st).pos = 0 ∧ (decodeTick st).current_frame = 0) ∧
    (0 < st.loop_out → st.loop_in ≤ st.loop_out → st.pos ≤ st.loop_out →
      ∀ n, (decodeIter n st).pos ≤ st.loop_out ∧
        (decodeIter n st).pos + 1 / st.fps ≤ st.loop_out + 1 / st.fps) := by
  refine ⟨fun h1 h2 h3 => ?_, fun h1 h2 h3 => ?_, fun h1 h2 h3 n => ?_⟩
  · unfold decodeTick
    split_ifs <;>
      first
        | exact ⟨rfl, rfl, le_refl _⟩
        | simp_all
  · unfold decodeTick
    split_ifs <;>
      first
        | exact ⟨rfl, rfl⟩
        | simp_all
  · refine ⟨decodeIter_pos_le st h1 h2 h3 n, ?_⟩
    exact add_le_add_right (decodeIter_pos_le st h1 h2 h3 n) _

/-- Witness for `decode_loop_loop_region`: loop region [5, 10], cursor at
the out bound — the next tick jumps back to 5 s. -/
theorem decode_loop_loop_region_witness :
    playerAtLoopOut.decodeRunning = true ∧ playerAtLoopOut.capOpen = true ∧
    (0:ℚ) < playerAtLoopOut.loop_out ∧
    playerAtLoopOut.pos < playerAtLoopOut.total_frames / playerAtLoopOut.fps ∧
    playerAtLoopOut.loop_out ≤ playerAtLoopOut.pos + 1 / playerAtLoopOut.fps ∧
    ((decodeTick playerAtLoopOut).pos = playerAtLoopOut.loop_in ∧
     (decodeTick playerAtLoopOut).current_frame =
       pyInt (playerAtLoopOut.loop_in * playerAtLoopOut.fps) ∧
     playerAtLoopOut.loop_in ≤ (decodeTick playerAtLoopOut).pos) :=
  ⟨rfl, rfl, by norm_num [playerAtLoopOut, examplePlayer],
   by norm_num [playerAtLoopOut, examplePlayer],
   by norm_num [playerAtLoopOut, examplePlayer],
   (decode_loop_loop_region playerAtLoopOut rfl rfl).1
     (by norm_num [playerAtLoopOut, examplePlayer])
     (by norm_num [playerAtLoopOut, examplePlayer])
     (by norm_num [playerAtLoopOut, examplePlayer])⟩

/-! ## seek(scrubbing=False) and scrub_ended (C10) -/

/-- C10 fails on the code as universally stated: `seek(f, scrubbing=False)`
on a playing player leaves `_was_playing_before_scrub` at its prior value
rather than clearing it, so if a scrub had already recorded True (slider
drag, then PLAY before the debounce fired), a subsequent `scrub_ended()`
resumes playback even though the last seek was a non-scrub one. -/
theorem seek_scrub_counterexample :
    playerMidScrub.playing = true ∧ playerMidScrub.wasPlayingBeforeScrub = true ∧
      (scrub_ended (seek playerMidScrub 10 false)).playing = true := by
  refine ⟨rfl, rfl, ?_⟩
  rfl

/-- C10 amended: `seek(f, scrubbing=False)` on a playing player stops
playback and leaves the was-playing flag unchanged (it does not record it);
provided no scrub was already in progress (flag False), a subsequent
`scrub_ended()` leaves the player paused; only `seek(f, scrubbing=True)`
records was-playing, making `scrub_ended()` resume. -/
theorem seek_scrub_amended (st : PlayerState) (f : ℤ)
    (hcap : st.capOpen = true) (hplay : st.playing = true) :
    (seek st f false).playing = false ∧
    (seek st f false).wasPlayingBeforeScrub = st.wasPlayingBeforeScrub ∧
    (st.wasPlayingBeforeScrub = false →
      (scrub_ended (seek st f false)).playing = false ∧
      (scrub_ended (seek st f false)).wasPlayingBeforeScrub = false) ∧
    ((seek st f true).wasPlayingBeforeScrub = true ∧
     (scrub_ended (seek st f true)).playing = true) := by
  refine ⟨?_, ?_, fun hflag => ⟨?_, ?_⟩, ?_, ?_⟩ <;>
    simp [seek, scrub_ended, play, hcap, hplay, *]

/-- Witness for `seek_scrub_amended`: a playing player with no scrub in
progress stays paused after a remote-command seek plus `scrub_ended`. -/
theorem seek_scrub_amended_witness :
    playerPlaying.capOpen = true ∧ playerPlaying.playing = true ∧
    playerPlaying.wasPlayingBeforeScrub = false ∧
    ((seek playerPlaying 10 false).playing = false ∧
     (seek playerPlaying 10 false).wasPlayingBeforeScrub =
       playerPlaying.wasPlayingBeforeScrub ∧
     (playerPlaying.wasPlayingBeforeScrub = false →
       (scrub_ended (seek playerPlaying 10 false)).playing = false ∧
       (scrub_ended (seek playerPlaying 10 false)).wasPlayingBeforeScrub = false) ∧
     ((seek playerPlaying 10 true).wasPlayingBeforeScrub = true ∧
      (scrub_ended (seek playerPlaying 10 true)).playing = true)) :=
  ⟨rfl, rfl, rfl, seek_scrub_amended playerPlaying 10 rfl rfl⟩

end StructureTools
